import Mathlib

/-!
Verification of the LR-evaluation and calibration core of the rna-celtypes
repository, shallowly embedded in Lean 4.

Conventions of the embedding:
* a 2-D numpy array of floats is a `List Row` with `Row := List ℚ`;
* a Python value that may be `None` is an `Option _`;
* Python exceptions (AttributeError, ValueError, failed assert, ...) are
  modelled with `Except PyError _`;
* the randomness of `sklearn.model_selection.train_test_split` is modelled
  by an explicit `shuffle : Pool → Pool` parameter: the split is
  `take k / drop k` of the shuffled pool, which matches sklearn's guarantee
  that an integral `train_size=k` yields exactly `k` rows in the first part;
* IEEE-754 float behaviour matters only where non-finite LR values are
  concerned; there we use the inductive type `FVal` below.
-/

/-- Errors raised by the Python runtime or by libraries in the modelled code. -/
inductive PyError where
  | attributeError
  | valueError
  | assertError
  | invalidLRError
  deriving DecidableEq, Repr

/-- One observation (a feature vector, one row of a 2-D numpy array). -/
abbrev Row : Type := List ℚ

/-- A sample pool: an N x D numpy array, as a list of rows. -/
abbrev Pool : Type := List Row

/-- Embedding of `AbstractCllrEvaluator.get_sample` (src/lir/plotting.py).
The Python code branches, in order, on `sample_size == -1`,
`sample_size is not None and sample_size == pool.shape[0]`,
`sample_size is not None` (then `train_test_split` plus two asserts),
and otherwise returns `(default_value, pool)`.  Accessing `pool.shape`
when `pool` is `None` raises `AttributeError`; `train_test_split` raises
`ValueError` when the requested size is not strictly between 0 and the
pool size. -/
def get_sample (pool : Option Pool) (sample_size : Option Int)
    (default_value : Option Pool) (shuffle : Pool → Pool) :
    Except PyError (Option Pool × Option Pool) :=
  match sample_size with
  | some sz =>
    if sz = -1 then
      Except.ok (pool, none)
    else
      match pool with
      | none => Except.error PyError.attributeError
      | some p =>
        if sz = (p.length : Int) then
          Except.ok (some p, none)
        else if 0 < sz ∧ sz < (p.length : Int) then
          let shuffled := shuffle p
          let sample := shuffled.take sz.toNat
          let newpool := shuffled.drop sz.toNat
          if sample.length = sz.toNat ∧ sample.length + newpool.length = p.length then
            Except.ok (some sample, some newpool)
          else
            Except.error PyError.assertError
        else
          Except.error PyError.valueError
  | none => Except.ok (default_value, pool)

/-- Arguments of `AbstractCllrEvaluator.__call__` (src/lir/plotting.py), with
pool-valued arguments already resolved (the `resolve` lambda applies a
callable argument to `x`; the embedding works with the resulting pools).
The Python parameter `repeat` is called `repeats` here because `repeat` is a
reserved word in Lean. -/
structure CallArgs where
  X0 : Option Pool := none
  X1 : Option Pool := none
  train_size : Option Int := none
  calibrate_size : Option Int := none
  test_size : Option Int := none
  class0_train_size : Option Int := none
  class0_calibrate_size : Option Int := none
  class0_test_size : Option Int := none
  class1_train_size : Option Int := none
  class1_calibrate_size : Option Int := none
  class1_test_size : Option Int := none
  class0_train : Option Pool := none
  class1_train : Option Pool := none
  class0_calibrate : Option Pool := none
  class1_calibrate : Option Pool := none
  class0_test : Option Pool := none
  class1_test : Option Pool := none
  train_folds : Option Nat := none
  train_reuse : Bool := false
  repeats : Nat := 1

/-- The concrete evaluator supplies `cllr_kfold` and `cllr` methods; they are
abstract in `AbstractCllrEvaluator`, so the embedding takes them as fields.
`R` is the type of one evaluation result (a `CllrResult` in the Python code;
its contents are irrelevant to the harness claims). -/
structure Evaluator (R : Type) where
  cllr_kfold : Nat → Pool → Pool → Pool → Pool → R
  cllr : Option Pool → Option Pool → Option Pool → Option Pool →
      Option Pool → Option Pool → R

/-- The six drawn splits of one repetition, in the order
(class0_train, class1_train, class0_calibrate, class1_calibrate,
class0_test, class1_test). -/
structure Splits where
  c0_train : Option Pool
  c1_train : Option Pool
  c0_calibrate : Option Pool
  c1_calibrate : Option Pool
  c0_test : Option Pool
  c1_test : Option Pool

/-- Embedding of the six sequential `get_sample` calls of one repetition of
`AbstractCllrEvaluator.__call__`: the class-0 pool is threaded through the
class-0 train, calibrate and test draws, then the class-1 pool through the
class-1 draws.  Each draw uses the per-class size if given, else the shared
size, and the resolved pre-supplied split as default. -/
def drawSplits (a : CallArgs) (shuffle : Pool → Pool) : Except PyError Splits := do
  let (c0_train, pool0) ←
    get_sample a.X0 (a.class0_train_size <|> a.train_size) a.class0_train shuffle
  let (c0_calibrate, pool0) ←
    get_sample pool0 (a.class0_calibrate_size <|> a.calibrate_size) a.class0_calibrate shuffle
  let (c0_test, _) ←
    get_sample pool0 (a.class0_test_size <|> a.test_size) a.class0_test shuffle
  let (c1_train, pool1) ←
    get_sample a.X1 (a.class1_train_size <|> a.train_size) a.class1_train shuffle
  let (c1_calibrate, pool1) ←
    get_sample pool1 (a.class1_calibrate_size <|> a.calibrate_size) a.class1_calibrate shuffle
  let (c1_test, _) ←
    get_sample pool1 (a.class1_test_size <|> a.test_size) a.class1_test shuffle
  Except.ok ⟨c0_train, c1_train, c0_calibrate, c1_calibrate, c0_test, c1_test⟩

/-- Embedding of the mode-selection `if`/`elif` chain at the end of one
repetition of `AbstractCllrEvaluator.__call__`.  Returns `some r` when a
branch fired and appended a result, `none` when no branch fired; the k-fold
branch asserts that both training and both test splits are present before
calling `cllr_kfold`. -/
def selectMode {R : Type} (E : Evaluator R) (train_folds : Option Nat)
    (train_reuse : Bool) (s : Splits) : Except PyError (Option R) :=
  if s.c0_train.isSome ∧ train_folds.isSome then
    match train_folds, s.c0_train, s.c1_train, s.c0_test, s.c1_test with
    | some k, some t0, some t1, some u0, some u1 =>
      Except.ok (some (E.cllr_kfold k t0 t1 u0 u1))
    | _, _, _, _, _ => Except.error PyError.assertError
  else if s.c0_calibrate.isSome then
    Except.ok (some (E.cllr s.c0_train s.c1_train s.c0_calibrate s.c1_calibrate
      s.c0_test s.c1_test))
  else if s.c0_train.isSome ∧ train_reuse then
    Except.ok (some (E.cllr s.c0_train s.c1_train s.c0_train s.c1_train
      s.c0_test s.c1_test))
  else
    Except.ok none

/-- The body of one repetition of `AbstractCllrEvaluator.__call__`: draw the
six splits, then select the evaluation mode. -/
def runOnce {R : Type} (E : Evaluator R) (a : CallArgs) (shuffle : Pool → Pool) :
    Except PyError (Option R) := do
  let s ← drawSplits a shuffle
  selectMode E a.train_folds a.train_reuse s

/-- The repetition loop of `AbstractCllrEvaluator.__call__`: `n` repetitions,
each appending at most one result to the accumulated list. -/
def callAux {R : Type} (E : Evaluator R) (a : CallArgs) (shuffle : Pool → Pool) :
    Nat → Except PyError (List R)
  | 0 => Except.ok []
  | n + 1 => do
    let acc ← callAux E a shuffle n
    let r ← runOnce E a shuffle
    match r with
    | some v => Except.ok (acc ++ [v])
    | none => Except.ok acc

/-- Embedding of `AbstractCllrEvaluator.__call__` (src/lir/plotting.py): run
`repeats` repetitions and return the collected cllr results. -/
def call {R : Type} (E : Evaluator R) (a : CallArgs) (shuffle : Pool → Pool) :
    Except PyError (List R) :=
  callAux E a shuffle a.repeats

/-- The cursor-based slicing loop at the end of `process_vector`
(src/lir/plotting.py): for each (already None-replaced) input `x`, emit the
slice `X_all[cursor : cursor + x.shape[0]]` when `x` has rows and `None`
otherwise, advancing the cursor by the row count of `x` either way.  Python
slicing truncates silently, exactly like `take`/`drop`. -/
def sliceOut : List Row → List Pool → List (Option Pool)
  | _, [] => []
  | X_all, x :: xs =>
    (if 0 < x.length then some (X_all.take x.length) else none) ::
      sliceOut (X_all.drop x.length) xs

/-- Embedding of `process_vector` (src/lir/plotting.py).  The preprocessor is
an external transformer exposing `fit_transform`, modelled as the function
`f`.  The list comprehension replaces a `None` input by an empty (0, d)
array whose width is read from `X[0].shape[1]`: this raises
`AttributeError` when `X[0]` is itself `None`, and `np.concatenate` raises
`ValueError` on an empty argument list. -/
def process_vector (f : List Row → List Row) (X : List (Option Pool)) :
    Except PyError (List (Option Pool)) :=
  match X with
  | [] => Except.error PyError.valueError
  | none :: _ => Except.error PyError.attributeError
  | some _ :: _ =>
    let Xr := X.map (fun x => x.getD [])
    let X_all := f Xr.flatten
    Except.ok (sliceOut X_all Xr)

/-- The four Gaussian parameters of `NormalCllrEvaluator`
(src/lir/plotting.py): `_loc0`, `_scale0`, `_loc1`, `_scale1`. -/
structure NormalParams where
  loc0 : ℝ
  scale0 : ℝ
  loc1 : ℝ
  scale1 : ℝ

/-- Embedding of `NormalCllrEvaluator._get_probability`:
`np.exp(-np.power(X - mu, 2) / (2*sigma*sigma)) / math.sqrt(2*math.pi*sigma*sigma)`. -/
noncomputable def get_probability (X mu sigma : ℝ) : ℝ :=
  Real.exp (-(X - mu) ^ 2 / (2 * sigma * sigma)) /
    Real.sqrt (2 * Real.pi * sigma * sigma)

/-- Embedding of `NormalCllrEvaluator._get_lr`: the ratio
`P(E|H1) / P(E|H0)` of the two Gaussian densities at the query point. -/
noncomputable def get_lr (p : NormalParams) (X : ℝ) : ℝ :=
  get_probability X p.loc1 p.scale1 / get_probability X p.loc0 p.scale0

/-- IEEE-754 double-precision values as far as the Cllr precondition checks
are concerned: a finite value (represented exactly by a rational), the two
infinities, or NaN. -/
inductive FVal where
  | num : ℚ → FVal
  | inf : FVal
  | neginf : FVal
  | nan : FVal
  deriving DecidableEq, Repr

namespace FVal

/-- IEEE multiplication of a float by a finite scalar (the n-hot label mask
values 0 and 1 in `rna.analytics.cllr`): finite times finite is exact,
infinity times zero is NaN, NaN propagates. -/
def mulQ : FVal → ℚ → FVal
  | num q, c => num (q * c)
  | inf, c => if 0 < c then inf else if c < 0 then neginf else nan
  | neginf, c => if 0 < c then neginf else if c < 0 then inf else nan
  | nan, _ => nan

/-- IEEE comparison `v == 0.0`: true exactly for the finite value zero
(NaN compares unequal to everything, infinities are nonzero). -/
def isZero : FVal → Bool
  | num q => q = 0
  | _ => false

/-- A value violating the Cllr precondition: non-positive or non-finite
(spec §4.2: any LR ≤ 0 or non-finite). -/
def isInvalidLR : FVal → Bool
  | num q => q ≤ 0
  | _ => true

/-- The real number carried by a finite value; the non-finite constructors
map to 0 (they never reach a cost computation, which is guarded by
`isInvalidLR`). -/
def toReal : FVal → ℝ
  | num q => (q : ℝ)
  | _ => 0

end FVal

/-- The record returned by the Cllr metric.  Only the `cllr` field is read
by the code under src/ (rna/analytics.py line 192); the other diagnostic
fields of the spec's Cllr result record are not modelled. -/
structure CllrResult where
  cllr : ℝ

/-- Modelled from the spec: the cost formula of §4.2,
`Cllr = 0.5 * (mean log2(1 + lr_i) over class0 + mean log2(1 + 1/lr_j) over class1)`,
computed by `lir.lr.calculate_cllr`, whose source (lir/lr.py) is not under
src/. -/
noncomputable def cllrCost (lr_class0 lr_class1 : List FVal) : ℝ :=
  (1 / 2) *
    ((lr_class0.map (fun v => Real.logb 2 (1 + v.toReal))).sum / lr_class0.length +
     (lr_class1.map (fun v => Real.logb 2 (1 + 1 / v.toReal))).sum / lr_class1.length)

/-- Modelled from the spec: `lir.lr.calculate_cllr` (lir/lr.py, not under
src/).  Per §4.2 and §7 of the spec, any LR that is non-positive or
non-finite is a precondition violation checked before the cost is computed
and fails with `InvalidLRError`; an empty class array yields the sentinel
cost 9999.0; otherwise the cost formula is evaluated. -/
noncomputable def calculate_cllr (lr_class0 lr_class1 : List FVal) :
    Except PyError CllrResult :=
  if (lr_class0 ++ lr_class1).any FVal.isInvalidLR then
    Except.error PyError.invalidLRError
  else if lr_class0.isEmpty || lr_class1.isEmpty then
    Except.ok ⟨9999⟩
  else
    Except.ok ⟨cllrCost lr_class0 lr_class1⟩

/-- `np.max(row, axis=1)` applied to one row: the maximum of the entries.
NumPy raises on an empty row; the claims only use non-empty rows, and the
embedding returns 0 there. -/
def npMaxRow (l : List ℚ) : ℚ :=
  l.foldl max (l.headD 0)

/-- The per-sample n-hot label masks of `rna.analytics.cllr`:
`np.max(np.multiply(y_nhot, target_class), axis=1)`. -/
def cllrMask (y_nhot : List (List ℚ)) (target_class : List ℚ) : List ℚ :=
  y_nhot.map (fun row => npMaxRow (List.zipWith (fun a b => a * b) row target_class))

/-- `lrs1` of `rna.analytics.cllr`: the LRs multiplied by the target-class
mask, with exact zeros deleted
(`np.delete(lrs1, np.where(lrs1 == 0.0))`). -/
def cllrLrs1 (lrs : List FVal) (y_nhot : List (List ℚ)) (target_class : List ℚ) :
    List FVal :=
  (List.zipWith FVal.mulQ lrs (cllrMask y_nhot target_class)).filter
    (fun v => !v.isZero)

/-- `lrs2` of `rna.analytics.cllr`: the LRs multiplied by the complementary
mask `1 - max(...)`, with exact zeros deleted. -/
def cllrLrs2 (lrs : List FVal) (y_nhot : List (List ℚ)) (target_class : List ℚ) :
    List FVal :=
  (List.zipWith FVal.mulQ lrs ((cllrMask y_nhot target_class).map (fun m => 1 - m))).filter
    (fun v => !v.isZero)

/-- Embedding of `rna.analytics.cllr` (src/rna/analytics.py lines 174-194):
partition the LRs by the target-class labels, delete exact zeros, return the
sentinel 9999.0 when either side is empty, and otherwise return the `cllr`
field of `lir.lr.calculate_cllr(lrs2, lrs1)`. -/
noncomputable def rna_cllr (lrs : List FVal) (y_nhot : List (List ℚ))
    (target_class : List ℚ) : Except PyError ℝ :=
  let lrs1 := cllrLrs1 lrs y_nhot target_class
  let lrs2 := cllrLrs2 lrs y_nhot target_class
  if 0 < lrs1.length ∧ 0 < lrs2.length then
    (calculate_cllr lrs2 lrs1).map CllrResult.cllr
  else
    Except.ok 9999

/-- The helper `int_to_binary` of `get_mixture_columns_for_class`
(src/rna/analytics.py): the binary expansion of `i` padded to length `n`
and flipped, so that entry `j` is bit `j` of `i` (least significant first),
written as `(i / 2 ^ j) % 2`.  The Python code reads `n` from
`len(single_cell_types)` (rna/constants.py, not under src/); the embedding
takes it as a parameter. -/
def int_to_binary (n i : Nat) : List ℚ :=
  (List.range n).map (fun j => if (i / 2 ^ j) % 2 = 1 then 1 else 0)

/-- The helper `binary_admissable` of `get_mixture_columns_for_class`
(src/rna/analytics.py): with truthy priors, a mixture is rejected when it
contains a prior-0 class or misses a prior-1 class; in any case it must
share at least one class with the target class
(`np.inner(binary, target_class) != 0`). -/
def binary_admissable (binary : List ℚ) (target_class : List ℚ)
    (priors : Option (List ℚ)) : Bool :=
  (match priors with
   | none => true
   | some ps =>
     if ps.isEmpty then true
     else (List.range target_class.length).all (fun i =>
       !(binary.getD i 0 = 1 && ps.getD i 0 = 0) &&
       !(binary.getD i 0 = 0 && ps.getD i 0 = 1))) &&
  !((List.zipWith (fun a b => a * b) binary target_class).sum = 0)

/-- Embedding of `get_mixture_columns_for_class` (src/rna/analytics.py):
the mixture columns (indices below `2 ^ n`) admissible for the target
class under the given priors. -/
def get_mixture_columns_for_class (n : Nat) (target_class : List ℚ)
    (priors : Option (List ℚ)) : List Nat :=
  (List.range (2 ^ n)).filter
    (fun i => binary_admissable (int_to_binary n i) target_class priors)

/-- `np.sum(prob[:, indices][:, :, 0], axis=1)` for one sample row: the sum
of the row entries at the selected mixture columns (each cell of `prob`
holds a length-1 probability vector whose component 0 is read off). -/
def selSum (row : List ℚ) (idxs : List Nat) : ℚ :=
  (idxs.map (fun j => row.getD j 0)).sum

/-- The unclamped LR matrix built by the loop of
`convert_prob_per_mixture_to_marginal_per_class` (src/rna/lr_system.py):
entry (s, i) is the numerator sum over the columns admissible for target
class i divided by the denominator sum over the columns admissible for
`1 - target_class`.  Rational division by zero yields 0 here where NumPy
floats would yield inf or NaN; all claims about this function assume a
strictly positive denominator. -/
def rawLRs (prob : List (List ℚ)) (target_classes : List (List ℚ))
    (priors_numerator priors_denominator : Option (List ℚ)) (n : Nat) :
    List (List ℚ) :=
  prob.map (fun row => target_classes.map (fun tc =>
    selSum row (get_mixture_columns_for_class n tc priors_numerator) /
      selSum row (get_mixture_columns_for_class n (tc.map (fun t => 1 - t))
        priors_denominator)))

/-- `np.where(lrs > MAX_LR, MAX_LR, lrs)` on one entry. -/
def clampUpper (M x : ℚ) : ℚ := if M < x then M else x

/-- `np.where(lrs < -MAX_LR, -MAX_LR, lrs)` on one entry. -/
def clampLower (M x : ℚ) : ℚ := if x < -M then -M else x

/-- Embedding of `convert_prob_per_mixture_to_marginal_per_class`
(src/rna/lr_system.py lines 61-94): assert every target class is non-empty,
build the raw LR matrix, clamp above at `MAX_LR` and then below at
`-MAX_LR`. -/
def convert_prob_per_mixture_to_marginal_per_class (prob : List (List ℚ))
    (target_classes : List (List ℚ)) (MAX_LR : ℚ)
    (priors_numerator priors_denominator : Option (List ℚ)) (n : Nat) :
    Except PyError (List (List ℚ)) :=
  if target_classes.all (fun tc => 0 < tc.sum) then
    Except.ok
      (((rawLRs prob target_classes priors_numerator priors_denominator n).map
          (fun r => r.map (clampUpper MAX_LR))).map
        (fun r => r.map (clampLower MAX_LR)))
  else
    Except.error PyError.assertError

/-- The state of one external calibrator object.  `KDECalibrator`
(lir package, not under src/) is an opaque `fit`/`transform` component; the
part of its state the claims are about is which scores and labels it was
last fit on, so the state is abstracted as exactly that pair (`none` =
never fit). -/
abbrev CalState := Option (List ℚ × List ℚ)

/-- Modelled from the spec: `KDECalibrator.fit` (lir package, not under
src/).  Per the §6 calibrator contract and the sklearn convention it
follows, `fit(scores, labels)` replaces the object state in place with the
state estimated from the given scores and labels and returns the same
object; the new state is abstracted as the fit inputs. -/
def kdeFit (scores labels : List ℚ) : CalState :=
  some (scores, labels)

/-- The mutable state of a `MarginalClassifier` relevant to
`fit_calibration` (src/rna/lr_system.py): a heap of calibrator objects
(addresses are list indices), the address of the single calibrator instance
created in `__init__` (`self._calibrator = calibrator()`), and the
dictionary `self._calibrators_per_target_class`, whose keys
`str(target_class)` are modelled by the target-class vectors themselves
(`str` is injective on distinct vectors). -/
structure MarginalState where
  heap : List CalState
  self_calibrator : Nat
  calibrators_per_target_class : List (List ℚ × Nat)

/-- The state after `MarginalClassifier.__init__`: one unfit calibrator
instance at address 0 and an empty dictionary. -/
def initMarginalState : MarginalState :=
  ⟨[none], 0, []⟩

/-- Python dictionary assignment `d[k] = v` on an association list:
overwrite the existing entry or append a new one. -/
def dictSet (d : List (List ℚ × Nat)) (k : List ℚ) (v : Nat) :
    List (List ℚ × Nat) :=
  if d.any (fun q => q.1 = k) then
    d.map (fun q => if q.1 = k then (k, v) else q)
  else
    d ++ [(k, v)]

/-- Embedding of `MarginalClassifier.fit_calibration`
(src/rna/lr_system.py lines 22-35).  The classifier is an opaque external
scorer, so its output `predict_proba(X)` is the parameter `ypred_proba`;
`predict_lrs` converts it to the uncalibrated LR matrix.  The loop then,
for each target class `i`: reads `calibrator = self._calibrator` (the one
shared instance), fits it in place on column `i` of the LR matrix and the
n-hot labels `np.max(np.multiply(y_nhot, target_class.T), axis=1)`, and
stores the same reference in the dictionary. -/
def fit_calibration (st : MarginalState) (ypred_proba y_nhot : List (List ℚ))
    (target_classes : List (List ℚ)) (MAX_LR : ℚ) (n : Nat) :
    Except PyError MarginalState := do
  let lrs_per_target_class ←
    convert_prob_per_mixture_to_marginal_per_class ypred_proba target_classes
      MAX_LR none none n
  Except.ok (target_classes.enum.foldl (fun s p =>
    let lrs := lrs_per_target_class.map (fun row => row.getD p.1 0)
    let labels := cllrMask y_nhot p.2
    { s with
      heap := s.heap.set s.self_calibrator (kdeFit lrs labels),
      calibrators_per_target_class :=
        dictSet s.calibrators_per_target_class p.2 s.self_calibrator }) st)

/-- Reading `self._calibrators_per_target_class[str(target_class)]` and
dereferencing the stored object: look the key up in the dictionary and read
the calibrator state at the resulting heap address. -/
def getCalibrator (st : MarginalState) (target_class : List ℚ) :
    Option CalState :=
  (st.calibrators_per_target_class.lookup target_class).bind
    (fun a => st.heap[a]?)

/-- A trivial concrete evaluator: both methods return `()`.  Used to
instantiate harness claims whose result values are irrelevant. -/
def evalUnit : Evaluator Unit :=
  ⟨fun _ _ _ _ _ => (), fun _ _ _ _ _ _ => ()⟩

/-- Call arguments exercising a size -1 train draw followed by a sized
calibrate draw from the same class pool. -/
def c2Args : CallArgs :=
  { X0 := some [[0], [1]], X1 := some [[0], [1]],
    train_size := some (-1), calibrate_size := some 1, repeats := 1 }

/-- Call arguments for which no evaluation mode fires: static pools, no
split sizes, no pre-supplied splits, `train_folds` absent and `train_reuse`
false. -/
def c5Args : CallArgs :=
  { X0 := some [[0]], X1 := some [[0]], repeats := 1 }

/-- Call arguments with pre-supplied calibration splits, so the direct
calibrate-then-test mode fires in every repetition. -/
def c5WitnessArgs : CallArgs :=
  { X0 := some [[0]], X1 := some [[0]],
    class0_calibrate := some [[1]], class1_calibrate := some [[1]],
    repeats := 2 }

/-- Splits exercising the k-fold branch. -/
def splitsKfold : Splits :=
  ⟨some [[0]], some [[1]], none, none, some [[2]], some [[3]]⟩

/-- Splits exercising the direct calibrate-then-test branch. -/
def splitsCalib : Splits :=
  ⟨none, none, some [[4]], some [[5]], none, none⟩

/-- Splits exercising the reuse-training-as-calibration branch. -/
def splitsReuse : Splits :=
  ⟨some [[6]], some [[7]], none, none, some [[8]], none⟩

/-- C2: the claim says a size -1 draw returns the whole pool with a null
remainder and that later split requests in the same repetition still draw
from the full original pool.  The first half is true, but the remainder
really is `None`: the next sized request calls `pool.shape[0]` on `None`
and the repetition aborts with `AttributeError` instead of drawing from the
full pool of 2 rows. -/
theorem c2_counterexample :
    get_sample (some [[0], [1]]) (some (-1)) none id =
      Except.ok (some [[0], [1]], none) ∧
    call evalUnit c2Args id = Except.error PyError.attributeError :=
  ⟨rfl, rfl⟩

/-- C2 (amended): `get_sample` with size -1 returns the entire pool together
with a `None` remainder, and later split requests in the same repetition
draw from that `None` remainder: a further size -1 request yields `None`
with a `None` remainder, a request with any other explicit size fails with
`AttributeError`, and a size-`None` request falls back to the pre-supplied
default. -/
theorem c2_amended (pool d : Option Pool) (k : Int) (sh : Pool → Pool)
    (hk : k ≠ -1) :
    get_sample pool (some (-1)) d sh = Except.ok (pool, none) ∧
    get_sample none (some (-1)) d sh = Except.ok (none, none) ∧
    get_sample none (some k) d sh = Except.error PyError.attributeError ∧
    get_sample none none d sh = Except.ok (d, none) := by
  refine ⟨rfl, rfl, ?_, rfl⟩
  unfold get_sample
  simp [hk]

/-- Witness for C2 (amended) at a concrete pool and size. -/
theorem c2_amended_witness :
    get_sample (some [[0], [1]]) (some (-1)) none id =
      Except.ok (some [[0], [1]], none) ∧
    get_sample none (some (-1)) none id = Except.ok (none, none) ∧
    get_sample none (some 1) none id = Except.error PyError.attributeError ∧
    get_sample none none none id = Except.ok (none, none) :=
  c2_amended (some [[0], [1]]) none 1 id (by decide)

/-- C7: for a pool of `N` rows and an integral size `0 < k < N`,
`get_sample` partitions the (shuffled) pool into a sample of exactly `k`
rows and a remainder, their row counts summing to `N`, so both asserts
succeed; with size `None` the pre-supplied default is returned and the pool
is passed through untouched. -/
theorem c7_get_sample_partition (p : Pool) (k : Nat) (d : Option Pool)
    (sh : Pool → Pool) (hsh : (sh p).length = p.length)
    (h0 : 0 < k) (hN : k < p.length) :
    get_sample (some p) (some (k : Int)) d sh =
      Except.ok (some ((sh p).take k), some ((sh p).drop k)) ∧
    ((sh p).take k).length = k ∧
    ((sh p).take k).length + ((sh p).drop k).length = p.length ∧
    get_sample (some p) none d sh = Except.ok (d, some p) := by
  have htake : ((sh p).take k).length = k := by
    simp [List.length_take]
    omega
  have hdrop : ((sh p).drop k).length = p.length - k := by
    simp [List.length_drop]
    omega
  refine ⟨?_, htake, by omega, rfl⟩
  unfold get_sample
  have h1 : ¬((k : Int) = -1) := by omega
  have h2 : ¬((k : Int) = (p.length : Int)) := by omega
  have h3 : (0 : Int) < (k : Int) ∧ (k : Int) < (p.length : Int) := by
    constructor <;> omega
  simp only [h1, h2, h3, if_false, if_true, and_self, Int.toNat_natCast, if_neg]
  simp [htake, hdrop]
  omega

/-- Witness for C7 at a concrete 3-row pool and size 1. -/
theorem c7_get_sample_partition_witness :
    get_sample (some [[0], [1], [2]]) (some ((1 : Nat) : Int)) none id =
      Except.ok (some (([[0], [1], [2]] : Pool).take 1),
        some (([[0], [1], [2]] : Pool).drop 1)) ∧
    (([[0], [1], [2]] : Pool).take 1).length = 1 ∧
    (([[0], [1], [2]] : Pool).take 1).length +
      (([[0], [1], [2]] : Pool).drop 1).length = ([[0], [1], [2]] : Pool).length ∧
    get_sample (some [[0], [1], [2]]) none none id =
      Except.ok (none, some [[0], [1], [2]]) :=
  c7_get_sample_partition [[0], [1], [2]] 1 none id rfl (by decide) (by decide)

/-- Helper: when the repetition body yields a result, the repetition loop of
`__call__` returns exactly one result per repetition. -/
theorem callAux_of_some {R : Type} (E : Evaluator R) (a : CallArgs)
    (sh : Pool → Pool) (v : R) (h : runOnce E a sh = Except.ok (some v)) :
    ∀ n, callAux E a sh n = Except.ok (List.replicate n v) := by
  intro n
  induction n with
  | zero => rfl
  | succ m ih =>
    simp only [callAux, ih, h, bind, Except.bind]
    simp [List.replicate_succ']

/-- Helper: when the repetition body yields no result, the repetition loop
of `__call__` returns the empty list. -/
theorem callAux_of_none {R : Type} (E : Evaluator R) (a : CallArgs)
    (sh : Pool → Pool) (h : runOnce E a sh = Except.ok none) :
    ∀ n, callAux E a sh n = Except.ok ([] : List R) := by
  intro n
  induction n with
  | zero => rfl
  | succ m ih =>
    simp only [callAux, ih, h, bind, Except.bind]

/-- C5: the claim says `__call__` with `repeat == r` returns exactly `r`
results.  False: a result is only appended when a mode branch fires, so a
call in which no branch fires (no calibration split, no k-fold request,
`train_reuse` false) returns the empty list even though `repeat == 1`. -/
theorem c5_counterexample :
    call evalUnit c5Args id = Except.ok ([] : List Unit) ∧
    c5Args.repeats = 1 :=
  ⟨rfl, rfl⟩

/-- C5 (amended): `__call__` returns one result per repetition in which an
evaluation mode fires.  Since the repetition body is deterministic given
the drawn splits, either every repetition yields a result — and the list
has exactly `repeat` entries — or none does and the list is empty. -/
theorem c5_amended {R : Type} (E : Evaluator R) (a : CallArgs)
    (sh : Pool → Pool) :
    (∀ v, runOnce E a sh = Except.ok (some v) →
      call E a sh = Except.ok (List.replicate a.repeats v) ∧
      (List.replicate a.repeats v).length = a.repeats) ∧
    (runOnce E a sh = Except.ok none → call E a sh = Except.ok ([] : List R)) := by
  constructor
  · intro v h
    exact ⟨callAux_of_some E a sh v h a.repeats, List.length_replicate _ _⟩
  · intro h
    exact callAux_of_none E a sh h a.repeats

/-- Witness for C5 (amended): with a calibration split present, 2
repetitions return exactly 2 results. -/
theorem c5_amended_witness :
    call evalUnit c5WitnessArgs id =
      Except.ok (List.replicate c5WitnessArgs.repeats ()) ∧
    (List.replicate c5WitnessArgs.repeats ()).length = c5WitnessArgs.repeats :=
  (c5_amended evalUnit c5WitnessArgs id).1 () rfl

/-- C6: mode selection in each repetition of `__call__` checks, in priority
order: k-fold requested and training split present (then `cllr_kfold` on
the train and test splits); else calibration split present (then `cllr`
with the drawn train, calibrate and test splits); else training split
present and `train_reuse` set (then `cllr` with the training split passed
as the calibration split).  The first conjunct records that the repetition
body is exactly draw-splits-then-select-mode. -/
theorem c6_mode_priority {R : Type} (E : Evaluator R) (folds : Option Nat)
    (reuse : Bool) (s : Splits) :
    (∀ (a : CallArgs) (sh : Pool → Pool), runOnce E a sh =
      (drawSplits a sh).bind (selectMode E a.train_folds a.train_reuse)) ∧
    (∀ k t0 t1 u0 u1, folds = some k → s.c0_train = some t0 →
      s.c1_train = some t1 → s.c0_test = some u0 → s.c1_test = some u1 →
      selectMode E folds reuse s =
        Except.ok (some (E.cllr_kfold k t0 t1 u0 u1))) ∧
    ((s.c0_train = none ∨ folds = none) → s.c0_calibrate.isSome →
      selectMode E folds reuse s =
        Except.ok (some (E.cllr s.c0_train s.c1_train s.c0_calibrate
          s.c1_calibrate s.c0_test s.c1_test))) ∧
    ((s.c0_train = none ∨ folds = none) → s.c0_calibrate = none →
      s.c0_train.isSome → reuse = true →
      selectMode E folds reuse s =
        Except.ok (some (E.cllr s.c0_train s.c1_train s.c0_train s.c1_train
          s.c0_test s.c1_test))) := by
  refine ⟨fun a sh => rfl, ?_, ?_, ?_⟩
  · intro k t0 t1 u0 u1 hk h0 h1 h2 h3
    unfold selectMode
    rw [hk, h0, h1, h2, h3]
    simp
  · intro hor hcal
    unfold selectMode
    have hcond : ¬(s.c0_train.isSome ∧ folds.isSome) := by
      rcases hor with h | h <;> simp [h]
    simp [hcond, hcal]
  · intro hor hcal htr hreuse
    have hfolds : folds = none := by
      rcases hor with h | h
      · rw [h] at htr; simp at htr
      · exact h
    unfold selectMode
    simp [hfolds, hcal, htr, hreuse]

/-- Witness for C6: each of the three modes at concrete splits. -/
theorem c6_mode_priority_witness :
    selectMode evalUnit (some 3) false splitsKfold =
      Except.ok (some (evalUnit.cllr_kfold 3 [[0]] [[1]] [[2]] [[3]])) ∧
    selectMode evalUnit none false splitsCalib =
      Except.ok (some (evalUnit.cllr none none (some [[4]]) (some [[5]])
        none none)) ∧
    selectMode evalUnit none true splitsReuse =
      Except.ok (some (evalUnit.cllr (some [[6]]) (some [[7]]) (some [[6]])
        (some [[7]]) (some [[8]]) none)) :=
  ⟨(c6_mode_priority evalUnit (some 3) false splitsKfold).2.1 3 [[0]] [[1]]
      [[2]] [[3]] rfl rfl rfl rfl rfl,
   (c6_mode_priority evalUnit none false splitsCalib).2.2.1 (Or.inr rfl) rfl,
   (c6_mode_priority evalUnit none true splitsReuse).2.2.2 (Or.inr rfl) rfl
      rfl rfl⟩

/-- C1: when both partitioned LR lists are non-empty (so the Cllr
computation is actually invoked) and some LR reaching it is non-positive or
non-finite, `rna.analytics.cllr` fails with `InvalidLRError`; the validity
check precedes the cost computation, so no cost is ever returned in that
case. -/
theorem c1_invalid_lr_raises (lrs : List FVal) (y_nhot : List (List ℚ))
    (tc : List ℚ)
    (h1 : 0 < (cllrLrs1 lrs y_nhot tc).length)
    (h2 : 0 < (cllrLrs2 lrs y_nhot tc).length)
    (hbad : ∃ v ∈ cllrLrs1 lrs y_nhot tc ++ cllrLrs2 lrs y_nhot tc,
      v.isInvalidLR) :
    rna_cllr lrs y_nhot tc = Except.error PyError.invalidLRError := by
  obtain ⟨v, hv, hvbad⟩ := hbad
  have hany : (cllrLrs2 lrs y_nhot tc ++ cllrLrs1 lrs y_nhot tc).any
      FVal.isInvalidLR = true := by
    rw [List.any_eq_true]
    rcases List.mem_append.mp hv with h | h
    · exact ⟨v, List.mem_append.mpr (Or.inr h), hvbad⟩
    · exact ⟨v, List.mem_append.mpr (Or.inl h), hvbad⟩
  unfold rna_cllr
  rw [if_pos ⟨h1, h2⟩]
  unfold calculate_cllr
  rw [if_pos hany]
  rfl

/-- Witness for C1: a negative LR on a target-class sample reaches the
computation and the call fails with `InvalidLRError`. -/
theorem c1_invalid_lr_raises_witness :
    rna_cllr [FVal.num (-1), FVal.num 2] [[1], [0]] [1] =
      Except.error PyError.invalidLRError := by
  have e1 : cllrLrs1 [FVal.num (-1), FVal.num 2] [[1], [0]] [1] =
      [FVal.num (-1)] := by
    simp [cllrLrs1, cllrMask, npMaxRow, FVal.mulQ, FVal.isZero]
  have e2 : cllrLrs2 [FVal.num (-1), FVal.num 2] [[1], [0]] [1] =
      [FVal.num 2] := by
    simp [cllrLrs2, cllrMask, npMaxRow, FVal.mulQ, FVal.isZero]
  exact c1_invalid_lr_raises [FVal.num (-1), FVal.num 2] [[1], [0]] [1]
    (by rw [e1]; decide) (by rw [e2]; decide)
    ⟨FVal.num (-1), by rw [e1, e2]; simp, by norm_num [FVal.isInvalidLR]⟩

/-- C4: when one of the two partitioned LR collections is empty after the
zero-deletion, `rna.analytics.cllr` returns the sentinel 9999.0 (an `ok`
value, not an error and not NaN); when both are non-empty (and the LRs
reaching the metric are valid), it returns the computed Cllr cost. -/
theorem c4_sentinel_or_cost (lrs : List FVal) (y_nhot : List (List ℚ))
    (tc : List ℚ) :
    (¬(0 < (cllrLrs1 lrs y_nhot tc).length ∧
        0 < (cllrLrs2 lrs y_nhot tc).length) →
      rna_cllr lrs y_nhot tc = Except.ok 9999) ∧
    (0 < (cllrLrs1 lrs y_nhot tc).length →
      0 < (cllrLrs2 lrs y_nhot tc).length →
      (∀ v ∈ cllrLrs1 lrs y_nhot tc ++ cllrLrs2 lrs y_nhot tc,
        ¬v.isInvalidLR) →
      rna_cllr lrs y_nhot tc =
        Except.ok (cllrCost (cllrLrs2 lrs y_nhot tc)
          (cllrLrs1 lrs y_nhot tc))) := by
  constructor
  · intro h
    unfold rna_cllr
    rw [if_neg h]
  · intro h1 h2 hval
    have hany : (cllrLrs2 lrs y_nhot tc ++ cllrLrs1 lrs y_nhot tc).any
        FVal.isInvalidLR = false := by
      rw [List.any_eq_false]
      intro v hv
      rcases List.mem_append.mp hv with h | h
      · exact hval v (List.mem_append.mpr (Or.inr h))
      · exact hval v (List.mem_append.mpr (Or.inl h))
    have he2 : (cllrLrs2 lrs y_nhot tc).isEmpty = false := by
      cases h : cllrLrs2 lrs y_nhot tc with
      | nil => rw [h] at h2; simp at h2
      | cons a l => rfl
    have he1 : (cllrLrs1 lrs y_nhot tc).isEmpty = false := by
      cases h : cllrLrs1 lrs y_nhot tc with
      | nil => rw [h] at h1; simp at h1
      | cons a l => rfl
    unfold rna_cllr
    rw [if_pos ⟨h1, h2⟩]
    unfold calculate_cllr
    rw [if_neg (by simp [hany]), if_neg (by simp [he1, he2])]
    rfl

/-- Witness for C4: the spec scenario `lr_class0=[0.5,2.0], lr_class1=[]`
yields the sentinel, and a valid two-sided input yields the computed
cost. -/
theorem c4_sentinel_or_cost_witness :
    rna_cllr [FVal.num (1/2), FVal.num 2] [[0], [0]] [1] = Except.ok 9999 ∧
    rna_cllr [FVal.num (1/2), FVal.num 2] [[0], [1]] [1] =
      Except.ok (cllrCost (cllrLrs2 [FVal.num (1/2), FVal.num 2] [[0], [1]] [1])
        (cllrLrs1 [FVal.num (1/2), FVal.num 2] [[0], [1]] [1])) := by
  have e1a : cllrLrs1 [FVal.num (1/2), FVal.num 2] [[0], [0]] [1] = [] := by
    simp [cllrLrs1, cllrMask, npMaxRow, FVal.mulQ, FVal.isZero]
  have e1b : cllrLrs1 [FVal.num (1/2), FVal.num 2] [[0], [1]] [1] =
      [FVal.num 2] := by
    simp [cllrLrs1, cllrMask, npMaxRow, FVal.mulQ, FVal.isZero]
  have e2b : cllrLrs2 [FVal.num (1/2), FVal.num 2] [[0], [1]] [1] =
      [FVal.num (1/2)] := by
    norm_num [cllrLrs2, cllrMask, npMaxRow, FVal.mulQ, FVal.isZero]
  exact ⟨(c4_sentinel_or_cost [FVal.num (1/2), FVal.num 2] [[0], [0]] [1]).1
      (by rw [e1a]; simp),
    (c4_sentinel_or_cost [FVal.num (1/2), FVal.num 2] [[0], [1]] [1]).2
      (by rw [e1b]; decide) (by rw [e2b]; decide)
      (by rw [e1b, e2b]; norm_num [FVal.isInvalidLR])⟩

/-- C8: `NormalCllrEvaluator._get_lr` equals the analytic Gaussian density
ratio `N(x; loc1, scale1) / N(x; loc0, scale0)` (with Mathlib's
`gaussianPDFReal` at variance `scale^2` as the independent formulation of
the Gaussian density), and with `loc0=0, scale0=1, loc1=2, scale1=1` the LR
at the midpoint `x=1` is exactly 1. -/
theorem c8_normal_lr (p : NormalParams) (x : ℝ) :
    (get_lr p x =
      ProbabilityTheory.gaussianPDFReal p.loc1 ⟨p.scale1 ^ 2, sq_nonneg _⟩ x /
        ProbabilityTheory.gaussianPDFReal p.loc0 ⟨p.scale0 ^ 2, sq_nonneg _⟩ x) ∧
    get_lr ⟨0, 1, 2, 1⟩ 1 = 1 := by
  constructor
  · unfold get_lr get_probability
    simp only [ProbabilityTheory.gaussianPDFReal, NNReal.coe_mk, div_eq_mul_inv]
    ring_nf
  · unfold get_lr get_probability
    norm_num
    exact div_self (by positivity)

/-- Helper: the slicing loop of `process_vector` returns one output per
input. -/
theorem sliceOut_length (X_all : List Row) (Xr : List Pool) :
    (sliceOut X_all Xr).length = Xr.length := by
  induction Xr generalizing X_all with
  | nil => rfl
  | cons x xs ih => simp [sliceOut, ih]

/-- Helper: output `i` of the slicing loop is the contiguous slice of the
transformed concatenation starting at the sum of the row counts of the
earlier inputs, or `None` for a rowless input. -/
theorem sliceOut_getD (X_all : List Row) (Xr : List Pool) (i : Nat)
    (h : i < Xr.length) :
    (sliceOut X_all Xr).getD i none =
      if 0 < (Xr.getD i []).length then
        some ((X_all.drop (((Xr.take i).map List.length).sum)).take
          (Xr.getD i []).length)
      else none := by
  induction Xr generalizing X_all i with
  | nil => simp at h
  | cons x xs ih =>
    cases i with
    | zero => simp [sliceOut]
    | succ j =>
      have hj : j < xs.length := by simpa using h
      have ihj := ih (X_all.drop x.length) j hj
      simp only [sliceOut, List.getD_cons_succ, List.take_succ_cons,
        List.map_cons, List.sum_cons, ihj, List.drop_drop]

/-- Helper: the slice for input `i` ends within the concatenation of all
inputs. -/
theorem offset_add_le_total (Xr : List Pool) (i : Nat) (h : i < Xr.length) :
    ((Xr.take i).map List.length).sum + (Xr.getD i []).length ≤
      (Xr.map List.length).sum := by
  induction Xr generalizing i with
  | nil => simp at h
  | cons x xs ih =>
    cases i with
    | zero => simp
    | succ j =>
      have hj : j < xs.length := by simpa using h
      have := ih j hj
      simp only [List.take_succ_cons, List.map_cons, List.sum_cons,
        List.getD_cons_succ]
      omega

/-- Helper: element `i` of the None-replaced input list. -/
theorem getD_map_getD (X : List (Option Pool)) (i : Nat) :
    (X.map (fun x => x.getD [])).getD i [] = (X.getD i none).getD [] := by
  induction X generalizing i with
  | nil => simp
  | cons x xs ih =>
    cases i with
    | zero => simp
    | succ j =>
      simp only [List.getD_cons_succ, List.map_cons]
      exact ih j

/-- Helper: replacing `None` inputs by empty arrays and concatenating gives
the same rows as concatenating only the non-empty inputs, so the single
`fit_transform` call sees exactly the non-empty splits. -/
theorem flatten_eq_filter_flatten (X : List (Option Pool)) :
    (X.map (fun x => x.getD [])).flatten =
      ((X.filterMap id).filter (fun m => 0 < m.length)).flatten := by
  induction X with
  | nil => rfl
  | cons x xs ih =>
    cases x with
    | none => simpa using ih
    | some p =>
      by_cases hp : 0 < p.length
      · simp [hp, ih]
      · have hpe : p = [] := by
          cases p with
          | nil => rfl
          | cons r rs => simp at hp
        simp [hpe, ih]

/-- C9: the claim quantifies over every list of splits, each a 2-D array or
`None`.  False as stated: when the first split is `None`, the list
comprehension reads `X[0].shape[1]` from `None` and the call fails with
`AttributeError` before the preprocessor is ever fit. -/
theorem c9_counterexample :
    process_vector id [none, some [[1]]] = Except.error PyError.attributeError :=
  rfl

/-- C9 (amended): provided the first split is an array (and given the
transformer contract that `fit_transform` preserves the row count), the
preprocessor is fit exactly once on the concatenation of the non-empty
splits, and `process_vector` returns one output per input in order: output
`i` is the contiguous slice of the transformed concatenation with exactly
as many rows as input `i`, with `None` for inputs that are `None` or
empty. -/
theorem c9_process_vector (f : List Row → List Row) (X : List (Option Pool))
    (a : Pool) (rest : List (Option Pool)) (hX : X = some a :: rest)
    (hf : ∀ m, (f m).length = m.length) :
    ∃ out, process_vector f X = Except.ok out ∧
      out.length = X.length ∧
      (∀ i, i < X.length →
        out.getD i none =
          if 0 < ((X.getD i none).getD []).length then
            some (((f ((X.map (fun x => x.getD [])).flatten)).drop
              (((X.take i).map (fun x => (x.getD []).length)).sum)).take
              ((X.getD i none).getD []).length)
          else none) ∧
      (∀ i, i < X.length → ∀ s, out.getD i none = some s →
        s.length = ((X.getD i none).getD []).length) ∧
      ((X.map (fun x => x.getD [])).flatten =
        ((X.filterMap id).filter (fun m => 0 < m.length)).flatten) := by
  have hXmatch : process_vector f X =
      Except.ok (sliceOut (f ((X.map (fun x => x.getD [])).flatten))
        (X.map (fun x => x.getD []))) := by
    rw [hX]; rfl
  refine ⟨_, hXmatch, ?_, ?_, ?_, flatten_eq_filter_flatten X⟩
  · rw [sliceOut_length]; simp
  · intro i hi
    have hi2 : i < (X.map (fun x => x.getD [])).length := by simpa using hi
    rw [sliceOut_getD _ _ i hi2]
    have hoff : (((X.map (fun x => x.getD [])).take i).map List.length).sum =
        ((X.take i).map (fun x => (x.getD []).length)).sum := by
      rw [← List.map_take]
      simp [List.map_map]
      rfl
    rw [hoff, getD_map_getD]
  · intro i hi s hs
    have hi2 : i < (X.map (fun x => x.getD [])).length := by simpa using hi
    rw [sliceOut_getD _ _ i hi2] at hs
    by_cases hpos : 0 < ((X.map (fun x => x.getD [])).getD i []).length
    · rw [if_pos hpos] at hs
      have hsval := Option.some.inj hs
      have htot : (f ((X.map (fun x => x.getD [])).flatten)).length =
          ((X.map (fun x => x.getD [])).map List.length).sum := by
        rw [hf]
        exact List.length_flatten _
      have hle := offset_add_le_total (X.map (fun x => x.getD [])) i hi2
      have hlen : s.length = ((X.map (fun x => x.getD [])).getD i []).length := by
        rw [← hsval, List.length_take, List.length_drop, htot]
        omega
      rw [getD_map_getD] at hlen
      exact hlen
    · rw [if_neg hpos] at hs
      cases hs

/-- Witness for C9 (amended) with the identity preprocessor, one 2-row
split and one `None` split. -/
theorem c9_process_vector_witness :
    ∃ out, process_vector id [some [[1], [2]], none] = Except.ok out ∧
      out.length = ([some [[1], [2]], none] : List (Option Pool)).length ∧
      (∀ i, i < ([some [[1], [2]], none] : List (Option Pool)).length →
        out.getD i none =
          if 0 < ((([some [[1], [2]], none] : List (Option Pool)).getD i none).getD []).length then
            some (((id ((([some [[1], [2]], none] : List (Option Pool)).map
                (fun x => x.getD [])).flatten)).drop
              (((([some [[1], [2]], none] : List (Option Pool)).take i).map
                (fun x => (x.getD []).length)).sum)).take
              ((([some [[1], [2]], none] : List (Option Pool)).getD i none).getD []).length)
          else none) ∧
      (∀ i, i < ([some [[1], [2]], none] : List (Option Pool)).length → ∀ s,
        out.getD i none = some s →
        s.length = ((([some [[1], [2]], none] : List (Option Pool)).getD i none).getD []).length) ∧
      ((([some [[1], [2]], none] : List (Option Pool)).map
          (fun x => x.getD [])).flatten =
        ((([some [[1], [2]], none] : List (Option Pool)).filterMap id).filter
          (fun m => 0 < m.length)).flatten) :=
  c9_process_vector id [some [[1], [2]], none] [[1], [2]] [none] rfl
    (fun _ => rfl)

/-- Helper: a selected-column sum over a row of nonnegative entries is
nonnegative. -/
theorem selSum_nonneg (row : List ℚ) (idxs : List Nat)
    (h : ∀ q ∈ row, 0 ≤ q) : 0 ≤ selSum row idxs := by
  apply List.sum_nonneg
  intro x hx
  obtain ⟨j, hj, rfl⟩ := List.mem_map.mp hx
  rcases lt_or_ge j row.length with hlt | hge
  · rw [List.getD_eq_getElem row 0 hlt]
    exact h _ (List.getElem_mem hlt)
  · rw [List.getD_eq_default row 0 hge]

/-- Helper: mapping a function that fixes every element of a list is the
identity. -/
theorem list_map_id_of_fix {α : Type} (f : α → α) (l : List α)
    (h : ∀ x ∈ l, f x = x) : l.map f = l := by
  induction l with
  | nil => rfl
  | cons x xs ih =>
    rw [List.map_cons, h x (by simp), ih (fun y hy => h y (by simp [hy]))]

/-- Helper: clamping a nonnegative value above at `M > 0` lands in
`[0, M]`, and the subsequent lower clamp at `-M` does not move it. -/
theorem clamp_stable (M y : ℚ) (hM : 0 < M) (hy : 0 ≤ y) :
    clampLower M (clampUpper M y) = clampUpper M y ∧
    0 ≤ clampUpper M y ∧ clampUpper M y ≤ M := by
  unfold clampUpper clampLower
  split_ifs <;> refine ⟨by linarith, by linarith, by linarith⟩

/-- C10: with nonnegative probabilities, strictly positive denominator sums
for every sample and target class, and `MAX_LR > 0`, every entry of the
matrix returned by `convert_prob_per_mixture_to_marginal_per_class` lies in
`[0, MAX_LR]`, the lower clamp at `-MAX_LR` never alters any value, and a
returned entry can be exactly 0 (second conjunct: a concrete in-domain
input whose output contains a 0 entry). -/
theorem c10_marginal_lr_range (prob tcs : List (List ℚ)) (M : ℚ)
    (pn pd : Option (List ℚ)) (n : Nat)
    (hprob : ∀ row ∈ prob, ∀ q ∈ row, 0 ≤ q)
    (hden : ∀ row ∈ prob, ∀ tc ∈ tcs,
      0 < selSum row
        (get_mixture_columns_for_class n (tc.map (fun t => 1 - t)) pd))
    (hM : 0 < M) :
    (∀ L, convert_prob_per_mixture_to_marginal_per_class prob tcs M pn pd n =
        Except.ok L →
      (∀ r ∈ L, ∀ x ∈ r, 0 ≤ x ∧ x ≤ M) ∧
      L.map (fun r => r.map (clampLower M)) = L) ∧
    (∃ L2, convert_prob_per_mixture_to_marginal_per_class
        [[0, 0, 1, 0]] [[1, 0]] M none none 2 = Except.ok L2 ∧
      (0 : ℚ) ∈ L2.flatten) := by
  have hentry : ∀ L, convert_prob_per_mixture_to_marginal_per_class prob tcs M
      pn pd n = Except.ok L → ∀ r ∈ L, ∀ x ∈ r,
      (0 ≤ x ∧ x ≤ M) ∧ clampLower M x = x := by
    intro L hL r hr x hx
    unfold convert_prob_per_mixture_to_marginal_per_class at hL
    split at hL
    · injection hL with hL
      subst hL
      obtain ⟨r1, hr1, rfl⟩ := List.mem_map.mp hr
      obtain ⟨r0, hr0, rfl⟩ := List.mem_map.mp hr1
      obtain ⟨x1, hx1, rfl⟩ := List.mem_map.mp hx
      obtain ⟨x0, hx0, rfl⟩ := List.mem_map.mp hx1
      obtain ⟨row, hrow, rfl⟩ := List.mem_map.mp hr0
      obtain ⟨tc, htc, rfl⟩ := List.mem_map.mp hx0
      have hnum : 0 ≤ selSum row (get_mixture_columns_for_class n tc pn) :=
        selSum_nonneg _ _ (hprob row hrow)
      have hdpos := hden row hrow tc htc
      have hy : 0 ≤ selSum row (get_mixture_columns_for_class n tc pn) /
          selSum row (get_mixture_columns_for_class n
            (tc.map (fun t => 1 - t)) pd) :=
        div_nonneg hnum hdpos.le
      obtain ⟨heq, h0, h1⟩ := clamp_stable M _ hM hy
      refine ⟨⟨?_, ?_⟩, ?_⟩
      · rw [heq]; exact h0
      · rw [heq]; exact h1
      · rw [heq]
        unfold clampLower
        rw [if_neg (by linarith)]
    · cases hL
  constructor
  · intro L hL
    refine ⟨fun r hr x hx => (hentry L hL r hr x hx).1, ?_⟩
    apply list_map_id_of_fix
    intro r hr
    apply list_map_id_of_fix
    intro x hx
    exact (hentry L hL r hr x hx).2
  · have hA : ¬(M < 0) := by linarith
    have hB : ¬((0 : ℚ) < -M) := by linarith
    refine ⟨[[0]], ?_, by simp⟩
    unfold convert_prob_per_mixture_to_marginal_per_class
    rw [if_pos (by norm_num)]
    norm_num [rawLRs, selSum, get_mixture_columns_for_class,
      binary_admissable, int_to_binary, List.range_succ, List.filter,
      clampUpper, clampLower, hA, hB]

/-- Witness for C10 at a concrete probability matrix, two target classes
and `MAX_LR = 10`. -/
theorem c10_marginal_lr_range_witness :
    (∀ L, convert_prob_per_mixture_to_marginal_per_class
        [[0, 1/4, 1/2, 1/4]] [[1, 0], [0, 1]] 10 none none 2 =
        Except.ok L →
      (∀ r ∈ L, ∀ x ∈ r, 0 ≤ x ∧ x ≤ 10) ∧
      L.map (fun r => r.map (clampLower 10)) = L) ∧
    (∃ L2, convert_prob_per_mixture_to_marginal_per_class
        [[0, 0, 1, 0]] [[1, 0]] 10 none none 2 = Except.ok L2 ∧
      (0 : ℚ) ∈ L2.flatten) :=
  c10_marginal_lr_range [[0, 1/4, 1/2, 1/4]] [[1, 0], [0, 1]] 10 none none 2
    (by norm_num)
    (by
      intro row hrow tc htc
      rcases List.mem_singleton.mp hrow with rfl
      rcases List.mem_cons.mp htc with rfl | htc2
      · norm_num [selSum, get_mixture_columns_for_class, binary_admissable,
          int_to_binary, List.range_succ, List.filter]
      · rcases List.mem_singleton.mp htc2 with rfl
        norm_num [selSum, get_mixture_columns_for_class, binary_admissable,
          int_to_binary, List.range_succ, List.filter])
    (by norm_num)

/-- C3: the claim says each target class's stored calibrator state reflects
only the fit on that class's LRs and labels and is untouched by later
re-fits.  The code stores the single shared instance
`self._calibrator` under every key and `fit` mutates it in place, so after
the loop every key dereferences to the calibrator fitted on the LAST
target class's data.  Concretely: probabilities `[[0,1,1,0]]`, n-hot labels
`[[1,0]]`, target classes `[1,0]` then `[0,1]` give LR columns `[1]`, `[1]`
and label vectors `[1]`, `[0]`; the state stored for `[1,0]` is the fit on
`([1], [0])` — the second class's labels — not its own fit `([1], [1])`. -/
theorem c3_calibrator_aliasing :
    (fit_calibration initMarginalState [[0, 1, 1, 0]] [[1, 0]]
        [[1, 0], [0, 1]] 10 2).map
      (fun st => (getCalibrator st [1, 0], getCalibrator st [0, 1])) =
      Except.ok (some (kdeFit [1] [0]), some (kdeFit [1] [0])) ∧
    kdeFit [1] [0] ≠ kdeFit [1] [1] := by
  constructor
  · have hconv : convert_prob_per_mixture_to_marginal_per_class [[0, 1, 1, 0]]
        [[1, 0], [0, 1]] 10 none none 2 = Except.ok [[1, 1]] := by
      unfold convert_prob_per_mixture_to_marginal_per_class
      rw [if_pos (by norm_num)]
      norm_num [rawLRs, selSum, get_mixture_columns_for_class,
        binary_admissable, int_to_binary, List.range_succ, List.filter,
        clampUpper, clampLower]
    unfold fit_calibration
    rw [hconv]
    norm_num [List.enum, List.enumFrom, initMarginalState, dictSet, cllrMask,
      npMaxRow, kdeFit, getCalibrator, List.lookup, bind, Except.bind,
      Except.map, beq_iff_eq]
    split <;> rfl
  · simp [kdeFit]
